import Mathlib

/-!
Shallow embedding of the design-pattern examples in
`src/ArchitectureTest`, with theorems settling the specification's
claims about them.  Python numbers are modelled as an `Int`/`Rat` sum
type carrying the dynamic type tag; heap aliasing (for the prototype
example) is modelled with an explicit store of lists addressed by
natural numbers; the `random.randint` draws of the chain-of-
responsibility example are modelled as an explicit list of branch
choices consumed one per `handle` call.
-/

namespace ArchitectureTest

/-! ### behavioral/chain_of_responsibility.py

`Successor1.handle` draws `random.randint(1, 2)`; on `1` it adds 1 and
recurses into `Successor1`, on `2` it subtracts 1 and recurses into
`Successor2`.  `Successor2.handle` draws `random.randint(1, 3)`; on `1`
it doubles and recurses into `Successor1`, on `2` it halves with
Python's true division `/` (always producing a `float`) and recurses
into `Successor2`, and on `3` it returns the payload unchanged.
`Chain.start` enters at `Successor1`.
-/

/-- A Python numeric payload: an `int` or a `float`.  The example's
floats hold only values obtained from integers by `+1`, `-1`, `*2`,
`/2`, so they are modelled exactly as rationals; the claims at issue
concern only the dynamic type tag and termination, never rounding. -/
inductive PyNum where
  | int : Int → PyNum
  | float : Rat → PyNum
deriving DecidableEq, Repr

namespace PyNum

/-- Python `type(p) is int`. -/
def isInt : PyNum → Bool
  | int _ => true
  | float _ => false

/-- Python `type(p) is float`. -/
def isFloat : PyNum → Bool
  | int _ => false
  | float _ => true

/-- `payload + 1` (int stays int, float stays float). -/
def add1 : PyNum → PyNum
  | int n => int (n + 1)
  | float q => float (q + 1)

/-- `payload - 1`. -/
def sub1 : PyNum → PyNum
  | int n => int (n - 1)
  | float q => float (q - 1)

/-- `payload * 2`. -/
def mul2 : PyNum → PyNum
  | int n => int (n * 2)
  | float q => float (q * 2)

/-- `payload / 2`: Python true division, which returns a `float` even
on an `int` argument. -/
def div2 : PyNum → PyNum
  | int n => float ((n : Rat) / 2)
  | float q => float (q / 2)

end PyNum

/-- Which successor's `handle` is executing: `.s1` for `Successor1`,
`.s2` for `Successor2`. -/
inductive Successor where
  | s1
  | s2
deriving DecidableEq, Repr

/-- One mutually recursive run of `Successor1.handle` /
`Successor2.handle`, consuming one branch choice (the result of the
`random.randint` draw) per call.  An exhausted choice list means the
run did not finish within the recorded draws, so `none` on
`List.replicate n 1` for every `n` is exactly non-termination of the
always-draw-1 branch sequence. -/
def handle : Successor → PyNum → List Nat → Option PyNum
  | _, _, [] => none
  | .s1, payload, test :: rest =>
      if test = 1 then handle .s1 (payload.add1) rest
      else handle .s2 (payload.sub1) rest
  | .s2, payload, test :: rest =>
      if test = 1 then handle .s1 (payload.mul2) rest
      else if test = 2 then handle .s2 (payload.div2) rest
      else some payload

/-- `Chain.start(payload)`: hand the payload to `Successor1`. -/
def Chain.start (payload : PyNum) (choices : List Nat) : Option PyNum :=
  handle .s1 payload choices

/-- If every draw is `1`, `Successor1.handle` keeps recursing into
itself, so no number of draws finishes the run. -/
lemma handle_replicate_one (n : Nat) (p : PyNum) :
    handle .s1 p (List.replicate n 1) = none := by
  induction n generalizing p with
  | zero => rfl
  | succ n ih =>
      simp only [List.replicate_succ, handle, if_pos rfl]
      exact ih _

/-- Every arithmetic step of the chain maps a float payload to a float
payload, so a run started on a float that returns at all returns a
float. -/
lemma handle_float_isFloat (choices : List Nat) :
    ∀ (s : Successor) (q : Rat) (r : PyNum),
      handle s (PyNum.float q) choices = some r → r.isFloat = true := by
  induction choices with
  | nil => intro s q r h; simp [handle] at h
  | cons c rest ih =>
      intro s q r h
      cases s with
      | s1 =>
          by_cases hc : c = 1
          · exact ih .s1 (q + 1) r (by simpa [handle, hc, PyNum.add1] using h)
          · exact ih .s2 (q - 1) r (by simpa [handle, hc, PyNum.sub1] using h)
      | s2 =>
          by_cases hc : c = 1
          · exact ih .s1 (q * 2) r (by simpa [handle, hc, PyNum.mul2] using h)
          · by_cases hc2 : c = 2
            · exact ih .s2 (q / 2) r
                (by simpa [handle, hc, hc2, PyNum.div2] using h)
            · have : r = PyNum.float q := by
                simpa [handle, hc, hc2] using h.symm
              simp [this, PyNum.isFloat]

/-- C1 counterexample: on the `int` payload `1` with branch draws
`[2, 2, 3]`, `Chain.start` returns the `float` `0.0` — the payload's
type is not preserved — and on ten consecutive draws of `1` the run has
still not returned, witnessing the always-recurse branch sequence. -/
theorem chain_start_claim_false :
    Chain.start (PyNum.int 1) [2, 2, 3] = some (PyNum.float 0) ∧
    PyNum.isInt (PyNum.float 0) = false ∧
    Chain.start (PyNum.int 1) (List.replicate 10 1) = none := by
  refine ⟨?_, by decide, by decide⟩
  simp [Chain.start, handle, PyNum.sub1, PyNum.div2]

/-- C1 (amended): `Chain.start` does not terminate under every branch
sequence — the all-`1` sequence recurses forever — and when it does
return, the payload stays numeric but its Python type is only
guaranteed for `float` payloads: a `float` input yields a `float`
output (an `int` input may be turned into a `float` by `Successor2`'s
true division). -/
theorem chain_start_structural :
    (∀ (p : PyNum) (n : Nat),
        Chain.start p (List.replicate n 1) = none) ∧
    (∀ (q : Rat) (choices : List Nat) (r : PyNum),
        Chain.start (PyNum.float q) choices = some r →
          r.isFloat = true) := by
  constructor
  · intro p n
    exact handle_replicate_one n p
  · intro q choices r h
    exact handle_float_isFloat choices .s1 q r h

/-- Witness for `chain_start_structural` at concrete inputs. -/
theorem chain_start_structural_witness :
    Chain.start (PyNum.int 0) (List.replicate 3 1) = none ∧
    PyNum.isFloat (PyNum.float 0) = true :=
  ⟨chain_start_structural.1 (PyNum.int 0) 3,
   chain_start_structural.2 1 [2, 3] (PyNum.float 0)
     (by simp [Chain.start, handle, PyNum.sub1])⟩

/-! ### creational/prototype.py

`ConcretePrototype.clone(mode)` builds the new object's `field` from
`self.field` (the same reference) for `mode == "shallow"`, from
`self.field.copy()` for `mode == "referential"`, and from
`copy.deepcopy(self.field)` for `mode == "deep"`, then returns
`type(self)(fld)` — a freshly constructed prototype object.  Aliasing
is modelled with an explicit store of `Int`-list objects addressed by
`Nat` (the claim and the repository's own test use the flat list
`[1, 2, 3, 4]`, for which `copy.deepcopy` and `list.copy` build the
same fresh list object). -/

/-- The `mode` argument of `ConcretePrototype.clone`. -/
inductive Mode where
  | shallow
  | referential
  | deep
deriving DecidableEq, Repr

/-- The mutable heap: the list objects live at `Nat` addresses, and
`nextId` allocates `id()`s for prototype objects. -/
structure ProtoState where
  lists : List (List Int)
  nextId : Nat
deriving Repr

/-- A prototype object: its own identity (`id(self)`) and the address
of the list bound to `self.field`. -/
structure ConcretePrototype where
  addr : Nat
  field : Nat
deriving DecidableEq, Repr

/-- Dereference a list address. -/
def readList (st : ProtoState) (a : Nat) : List Int :=
  st.lists.getD a []

/-- `clone.field[i] = v`: in-place mutation of the list object at
address `a`. -/
def writeList (st : ProtoState) (a : Nat) (i : Nat) (v : Int) :
    ProtoState :=
  { st with lists := st.lists.set a ((st.lists.getD a []).set i v) }

/-- `ConcretePrototype.clone(mode)`.  `shallow` rebinds the same list
reference; `referential` (`self.field.copy()`) and `deep`
(`copy.deepcopy`, identical on a flat int list) allocate a fresh list
object with the same contents.  `type(self)(fld)` always makes a new
prototype object. -/
def clone (p : ConcretePrototype) (mode : Mode) (st : ProtoState) :
    ConcretePrototype × ProtoState :=
  match mode with
  | .shallow => (⟨st.nextId, p.field⟩, { st with nextId := st.nextId + 1 })
  | .referential =>
      (⟨st.nextId, st.lists.length⟩,
       ⟨st.lists ++ [readList st p.field], st.nextId + 1⟩)
  | .deep =>
      (⟨st.nextId, st.lists.length⟩,
       ⟨st.lists ++ [readList st p.field], st.nextId + 1⟩)

/-- Driver mirroring the repository's test: build a prototype over the
list `l`, clone it with `mode`, then set index `i` of the clone's field
to `v`.  Returns the original's and the clone's object identities and
what the original's `field` reads afterwards. -/
def cloneMutScenario (mode : Mode) (l : List Int) (i : Nat) (v : Int) :
    (Nat × Nat) × List Int :=
  let st0 : ProtoState := ⟨[l], 1⟩
  let p : ConcretePrototype := ⟨0, 0⟩
  let r := clone p mode st0
  let st2 := writeList r.2 r.1.field i v
  ((p.addr, r.1.addr), readList st2 p.field)

/-- C2 counterexample: with `mode = "shallow"` the clone's `field` is
the very list object of the original (exactly what the repository's own
test asserts), so setting the clone's `field[1] = 5` on the prototype
over `[1, 2, 3, 4]` is visible through the original, whose field then
reads `[1, 5, 3, 4]`. -/
theorem clone_claim_false :
    (cloneMutScenario Mode.shallow [1, 2, 3, 4] 1 5).2 = [1, 5, 3, 4] ∧
    ([1, 5, 3, 4] : List Int) ≠ [1, 2, 3, 4] := by
  refine ⟨by decide, by decide⟩

/-- C2 (amended): for every mode the clone is a distinct prototype
object, and for the `referential` and `deep` modes mutations through
the clone's field are invisible through the original's field; for the
`shallow` mode the two fields are the same list object, so such
mutations are visible (as the repository's own test asserts). -/
theorem clone_independence (mode : Mode) (l : List Int) (i : Nat)
    (v : Int) :
    (cloneMutScenario mode l i v).1.1 ≠ (cloneMutScenario mode l i v).1.2 ∧
    (mode ≠ Mode.shallow → (cloneMutScenario mode l i v).2 = l) := by
  cases mode with
  | shallow =>
      exact ⟨by simp [cloneMutScenario, clone], by simp⟩
  | referential =>
      refine ⟨by simp [cloneMutScenario, clone], fun _ => ?_⟩
      simp [cloneMutScenario, clone, writeList, readList]
  | deep =>
      refine ⟨by simp [cloneMutScenario, clone], fun _ => ?_⟩
      simp [cloneMutScenario, clone, writeList, readList]

/-- Witness for `clone_independence` at concrete inputs. -/
theorem clone_independence_witness :
    ((cloneMutScenario Mode.deep [1, 2, 3, 4] 1 5).1.1 ≠
      (cloneMutScenario Mode.deep [1, 2, 3, 4] 1 5).1.2) ∧
    (cloneMutScenario Mode.deep [1, 2, 3, 4] 1 5).2 = [1, 2, 3, 4] :=
  ⟨(clone_independence Mode.deep [1, 2, 3, 4] 1 5).1,
   (clone_independence Mode.deep [1, 2, 3, 4] 1 5).2 (by decide)⟩

/-! ### behavioral/interator.py

`Iterable` holds `aggregates` and a cursor `index` starting at 0.
`has_next()` is `index < len(aggregates)`; `next()` returns the element
at `index` and advances the cursor when `has_next()`, else returns
`None` and leaves the cursor alone. -/

/-- The `Iterable` iterator over a collection of aggregates. -/
structure Iterable (α : Type) where
  aggregates : List α
  index : Nat
deriving DecidableEq, Repr

namespace Iterable

/-- `Iterable.has_next`. -/
def hasNext (it : Iterable α) : Bool :=
  it.index < it.aggregates.length

/-- `Iterable.next`: the returned object (`none` models Python's
`None`) together with the iterator's state afterwards. -/
def next (it : Iterable α) : Option α × Iterable α :=
  if it.hasNext then
    (it.aggregates[it.index]?, { it with index := it.index + 1 })
  else
    (none, it)

end Iterable

/-- C3 (confirmed): over any 3-element collection `[a, b, c]`,
`has_next()` is true before each of the three `next()` calls, the
calls return `a`, `b`, `c` in insertion order, and after exhaustion
`next()` returns `None` while `has_next()` is false. -/
theorem iterable_three_elements {α : Type} (a b c : α) :
    Iterable.hasNext ⟨[a, b, c], 0⟩ = true ∧
    Iterable.next ⟨[a, b, c], 0⟩ = (some a, ⟨[a, b, c], 1⟩) ∧
    Iterable.hasNext (⟨[a, b, c], 1⟩ : Iterable α) = true ∧
    Iterable.next ⟨[a, b, c], 1⟩ = (some b, ⟨[a, b, c], 2⟩) ∧
    Iterable.hasNext (⟨[a, b, c], 2⟩ : Iterable α) = true ∧
    Iterable.next ⟨[a, b, c], 2⟩ = (some c, ⟨[a, b, c], 3⟩) ∧
    Iterable.hasNext (⟨[a, b, c], 3⟩ : Iterable α) = false ∧
    Iterable.next ⟨[a, b, c], 3⟩ = (none, ⟨[a, b, c], 3⟩) := by
  refine ⟨rfl, ?_, rfl, ?_, rfl, ?_, rfl, ?_⟩ <;>
    simp [Iterable.next, Iterable.hasNext]

/-! ### behavioral/interpreter.py

The AST has a terminal `Number` (which stores `int(value)` of its
token) and non-terminals `Add` and `Subtract`; `interpret()` evaluates
recursively. -/

/-- The `AbstractExpression` hierarchy. -/
inductive AbstractExpression where
  | number : Int → AbstractExpression
  | add : AbstractExpression → AbstractExpression → AbstractExpression
  | subtract : AbstractExpression → AbstractExpression → AbstractExpression
deriving DecidableEq, Repr

/-- `interpret()`: a `Number` returns its value, `Add` and `Subtract`
combine the recursive results. -/
def interpret : AbstractExpression → Int
  | .number v => v
  | .add l r => interpret l + interpret r
  | .subtract l r => interpret l - interpret r

/-- C4 (confirmed): the tree folded left-to-right from the tokens
`["5","+","4","-","3","+","7","-","2"]` — that is,
`Subtract(Add(Subtract(Add(Number 5, Number 4), Number 3), Number 7),
Number 2)` — interprets to `11`. -/
theorem interpret_sentence_eq_eleven :
    interpret
      (.subtract
        (.add
          (.subtract
            (.add (.number 5) (.number 4))
            (.number 3))
          (.number 7))
        (.number 2)) = 11 := by
  decide

/-! ### behavioral/memento.py

A `Memento` stores one state string.  `Originator.memento` packages the
current state; assigning to it replaces the state.  `Caretaker.create`
appends the originator's memento to its list, and `Caretaker.restore(i)`
assigns `self._mementos[index]` back to the originator. -/

/-- `Memento`: a stored state. -/
structure Memento where
  state : String
deriving DecidableEq, Repr

/-- The caretaker together with its originator: the originator's
current `_state` and the caretaker's `_mementos` list. -/
structure CaretakerWorld where
  originatorState : String
  mementos : List Memento
deriving DecidableEq, Repr

namespace CaretakerWorld

/-- `originator.state = s` (the property setter). -/
def setState (w : CaretakerWorld) (s : String) : CaretakerWorld :=
  { w with originatorState := s }

/-- `caretaker.create()`: append a `Memento` of the originator's
current state. -/
def create (w : CaretakerWorld) : CaretakerWorld :=
  { w with mementos := w.mementos ++ [Memento.mk w.originatorState] }

/-- `caretaker.restore(index)`: put `self._mementos[index]`'s state
back into the originator (Python indexing requires a valid index). -/
def restore (w : CaretakerWorld) (index : Nat)
    (h : index < w.mementos.length) : CaretakerWorld :=
  { w with originatorState := (w.mementos.get ⟨index, h⟩).state }

end CaretakerWorld

/-- The scenario of the memento example's test: states `"State #1"`
through `"State #4"`, with snapshots taken after `#2`, `#3` and `#4`. -/
def mementoScenario : CaretakerWorld :=
  ((((((CaretakerWorld.mk "" []).setState "State #1").setState
      "State #2").create.setState "State #3").create.setState
      "State #4").create)

/-- C5 (confirmed): in the scenario with snapshots after `"State #2"`,
`"State #3"`, `"State #4"`, restoring snapshot 0 makes the originator's
state `"State #2"`, and restoring snapshot 1 afterwards makes it
`"State #3"`. -/
theorem memento_restore_states :
    (mementoScenario.restore 0 (by decide)).originatorState =
      "State #2" ∧
    ((mementoScenario.restore 0 (by decide)).restore 1
        (by decide)).originatorState = "State #3" := by
  refine ⟨by decide, by decide⟩

/-! ### structural/flyweight.py

`FlyweightFactory` keeps a class-level cache mapping codes to
`Flyweight` objects; `get_flyweight(code)` inserts `Flyweight(code)` on
a miss and returns the cached entry; `get_count()` is the cache's size.
`Context(codes).ouptut()` (the source spells it `ouptut`) walks the
string's characters and concatenates the returned flyweights' codes.
The cache (a Python `dict`) is modelled as an insertion-ordered
association list. -/

/-- The Concrete Flyweight, storing its code. -/
structure Flyweight where
  code : Char
deriving DecidableEq, Repr

/-- The `FlyweightFactory`'s class-level `_flyweights` cache. -/
abbrev FlyweightCache := List (Char × Flyweight)

/-- `FlyweightFactory.get_flyweight(code)`: insert on a miss, and
return the cached flyweight together with the cache afterwards. -/
def getFlyweight (cache : FlyweightCache) (code : Char) :
    Flyweight × FlyweightCache :=
  match List.lookup code cache with
  | some fw => (fw, cache)
  | none => (Flyweight.mk code, cache ++ [(code, Flyweight.mk code)])

/-- `FlyweightFactory.get_count()`. -/
def getCount (cache : FlyweightCache) : Nat :=
  List.length cache

/-- The `Context` holding the sequence of codes (`list(codes)`). -/
structure Context where
  codes : List Char
deriving DecidableEq, Repr

/-- The loop body of `Context.ouptut`: `ret = ret + flyweight.code`
over the remaining codes. -/
def ouptutLoop (codes : List Char) (ret : String)
    (cache : FlyweightCache) : String × FlyweightCache :=
  match codes with
  | [] => (ret, cache)
  | c :: rest =>
      let r := getFlyweight cache c
      ouptutLoop rest (ret.push r.1.code) r.2

/-- `Context.ouptut()` run against a given factory cache. -/
def Context.ouptut (ctx : Context) (cache : FlyweightCache) :
    String × FlyweightCache :=
  ouptutLoop ctx.codes "" cache

/-- C6 (confirmed): starting from an empty cache,
`Context("abracadabra").ouptut()` reconstructs `"abracadabra"` while
the factory caches exactly 5 flyweights, one per distinct character. -/
theorem flyweight_abracadabra :
    ((Context.mk "abracadabra".toList).ouptut []).1 = "abracadabra" ∧
    getCount ((Context.mk "abracadabra".toList).ouptut []).2 = 5 := by
  refine ⟨by decide, by decide⟩

/-! ### creational/builder.py

`Product` starts with an empty `parts` list; the concrete `Builder`
constructs a fresh `Product` and appends `"Part A"`, `"Part B"`,
`"Part C"`; `Director.construct()` creates a **new** `Builder` on every
call, runs the three build steps and returns the result. -/

/-- The Product: its list of parts. -/
structure Product where
  parts : List String
deriving DecidableEq, Repr

/-- The Concrete Builder, owning the product under construction
(`self.product = Product()` in `__init__`). -/
structure Builder where
  product : Product
deriving DecidableEq, Repr

namespace Builder

/-- `Builder.build_part_a`. -/
def buildPartA (b : Builder) : Builder :=
  ⟨⟨b.product.parts ++ ["Part A"]⟩⟩

/-- `Builder.build_part_b`. -/
def buildPartB (b : Builder) : Builder :=
  ⟨⟨b.product.parts ++ ["Part B"]⟩⟩

/-- `Builder.build_part_c`. -/
def buildPartC (b : Builder) : Builder :=
  ⟨⟨b.product.parts ++ ["Part C"]⟩⟩

/-- `Builder.get_result`. -/
def getResult (b : Builder) : Product :=
  b.product

end Builder

/-- `Director.construct()`: a fresh `Builder` (hence a fresh empty
`Product`) every call, then the three build steps in order. -/
def Director.construct : Product :=
  (((Builder.mk ⟨[]⟩).buildPartA).buildPartB).buildPartC.getResult

/-- The products returned by `n` successive `Director.construct()`
calls (each call constructs its own `Builder`, sharing no state with
earlier calls). -/
def constructCalls : Nat → List Product
  | 0 => []
  | n + 1 => constructCalls n ++ [Director.construct]

/-- Each of the `n` calls returns the same fixed product. -/
lemma constructCalls_eq_replicate (n : Nat) :
    constructCalls n = List.replicate n ⟨["Part A", "Part B", "Part C"]⟩ := by
  induction n with
  | zero => rfl
  | succ n ih =>
      simp [constructCalls, ih, List.replicate_succ',
        Director.construct, Builder.buildPartA, Builder.buildPartB,
        Builder.buildPartC, Builder.getResult]

/-- C7 (confirmed): for every call count `n` and every `i < n`, the
`(i+1)`-th invocation of `Director.construct()` returns a product whose
parts are exactly `["Part A", "Part B", "Part C"]`; repeated calls
never accumulate extra parts or change the order. -/
theorem director_construct_parts (n i : Nat) (h : i < n) :
    (constructCalls n).getD i ⟨[]⟩ =
      ⟨["Part A", "Part B", "Part C"]⟩ := by
  rw [constructCalls_eq_replicate]
  rw [List.getD_eq_getElem?_getD, List.getElem?_replicate]
  simp [h]

/-- Witness for `director_construct_parts` at concrete inputs. -/
theorem director_construct_parts_witness :
    (constructCalls 3).getD 2 ⟨[]⟩ =
      ⟨["Part A", "Part B", "Part C"]⟩ :=
  director_construct_parts 3 2 (by decide)

/-! ### behavioral/command.py

The two concrete commands execute on the shared `Receiver`, which
prints a fixed line each.  The `Invoker` keeps a `_commands` dict
(modelled as an insertion-ordered association list; `register` is dict
assignment) and `execute_commands(name)` runs the registered command or
prints `Command [name] not recognised`. -/

/-- The concrete command objects (`Command1`/`Command2`, each bound to
the `Receiver`). -/
inductive ICommand where
  | command1
  | command2
deriving DecidableEq, Repr

/-- `execute()`: the console line the designated receiver prints
(`Receiver.run_command_1` / `run_command_2`). -/
def ICommand.execute : ICommand → String
  | .command1 => "Executing Command 1"
  | .command2 => "Executing Command 2"

/-- The `Invoker` and its `_commands` dict. -/
structure Invoker where
  commands : List (String × ICommand)
deriving DecidableEq, Repr

/-- Python dict assignment `d[k] = v`: overwrite the entry if the key
is present, append it otherwise. -/
def dictSet (d : List (String × ICommand)) (k : String) (v : ICommand) :
    List (String × ICommand) :=
  match d with
  | [] => [(k, v)]
  | (k', v') :: rest =>
      if k' = k then (k', v) :: rest else (k', v') :: dictSet rest k v

/-- `Invoker.register(command_name, command)`. -/
def Invoker.register (inv : Invoker) (name : String) (cmd : ICommand) :
    Invoker :=
  ⟨dictSet inv.commands name cmd⟩

/-- `Invoker.execute_commands(command_name)`: the console output
produced, together with the invoker afterwards. -/
def Invoker.executeCommands (inv : Invoker) (name : String) :
    String × Invoker :=
  match List.lookup name inv.commands with
  | some cmd => (cmd.execute, inv)
  | none => ("Command [" ++ name ++ "] not recognised", inv)

/-- C8 (confirmed): for every invoker and lookup name, a registered
name executes exactly the registered command, an unregistered name
reports it as not recognised on the console instead of failing, and in
both cases the invoker's command table is unchanged. -/
theorem invoker_executeCommands_spec (inv : Invoker) (name : String) :
    (∀ cmd, List.lookup name inv.commands = some cmd →
        inv.executeCommands name = (cmd.execute, inv)) ∧
    (List.lookup name inv.commands = none →
        inv.executeCommands name =
          ("Command [" ++ name ++ "] not recognised", inv)) ∧
    (inv.executeCommands name).2 = inv := by
  refine ⟨fun cmd hc => ?_, fun hn => ?_, ?_⟩
  · simp [Invoker.executeCommands, hc]
  · simp [Invoker.executeCommands, hn]
  · cases h : List.lookup name inv.commands <;>
      simp [Invoker.executeCommands, h]

/-- Witness for `invoker_executeCommands_spec` on the invoker of the
source's test (commands registered under `"1"` and `"2"`), looking up
the registered `"1"` and the unregistered `"3"`. -/
theorem invoker_executeCommands_spec_witness :
    (Invoker.mk [("1", ICommand.command1), ("2", ICommand.command2)]
        |>.executeCommands "1") =
      ("Executing Command 1",
       Invoker.mk [("1", ICommand.command1), ("2", ICommand.command2)]) ∧
    (Invoker.mk [("1", ICommand.command1), ("2", ICommand.command2)]
        |>.executeCommands "3") =
      ("Command [3] not recognised",
       Invoker.mk [("1", ICommand.command1), ("2", ICommand.command2)]) :=
  ⟨(invoker_executeCommands_spec
      (Invoker.mk [("1", ICommand.command1), ("2", ICommand.command2)])
      "1").1 ICommand.command1 (by decide),
   (invoker_executeCommands_spec
      (Invoker.mk [("1", ICommand.command1), ("2", ICommand.command2)])
      "3").2.1 (by decide)⟩

/-! ### behavioral/observer.py

`Subject` keeps its observers in a Python `set` (`self._observers`),
so `subscribe` is a no-op on an already-subscribed observer, and
`notify(*args)` calls `update(*args)` once per member of the set.
The set is modelled as a duplicate-free list of observer identities;
`notify` returns the trace of `update` calls it makes. -/

/-- The concrete `Subject`, holding the set of subscribed observer
identities. -/
structure Subject where
  observers : List Nat
deriving DecidableEq, Repr

/-- `Subject.subscribe`: `set.add`, a no-op when already a member. -/
def Subject.subscribe (s : Subject) (o : Nat) : Subject :=
  if o ∈ s.observers then s else ⟨s.observers ++ [o]⟩

/-- `Subject.notify(*args)`: the trace of `observer.update(*args)`
calls, one per member of the observer set. -/
def Subject.notify {α : Type} (s : Subject) (args : α) : List (Nat × α) :=
  s.observers.map (fun o => (o, args))

/-- A subject built by a sequence of `subscribe` calls on a fresh
`Subject()` (whose observer set starts empty). -/
def subscribeAll (subs : List Nat) : Subject :=
  subs.foldl Subject.subscribe ⟨[]⟩

/-- `subscribe` keeps the observer set duplicate-free. -/
lemma subscribe_nodup (s : Subject) (a : Nat)
    (hs : s.observers.Nodup) : (s.subscribe a).observers.Nodup := by
  by_cases ha : a ∈ s.observers
  · simpa [Subject.subscribe, ha] using hs
  · simp [Subject.subscribe, ha, List.nodup_append, hs]

/-- Membership in the observer set after a `subscribe`. -/
lemma subscribe_mem (s : Subject) (a o : Nat)
    (ho : o ∈ s.observers ∨ o = a) :
    o ∈ (s.subscribe a).observers := by
  by_cases ha : a ∈ s.observers
  · rcases ho with h1 | rfl
    · simpa [Subject.subscribe, ha] using h1
    · simp [Subject.subscribe, ha]
  · rcases ho with h1 | rfl
    · simp [Subject.subscribe, ha, h1]
    · simp [Subject.subscribe, ha]

/-- `subscribe` keeps the observer list duplicate-free and adds exactly
the subscribed identities. -/
lemma foldl_subscribe_invariant (subs : List Nat) :
    ∀ s : Subject, s.observers.Nodup →
      (subs.foldl Subject.subscribe s).observers.Nodup ∧
      (∀ o, o ∈ subs ∨ o ∈ s.observers →
        o ∈ (subs.foldl Subject.subscribe s).observers) := by
  induction subs with
  | nil =>
      intro s hs
      exact ⟨hs, fun o ho => by simpa using ho⟩
  | cons a rest ih =>
      intro s hs
      have hsub := subscribe_nodup s a hs
      refine ⟨(ih (s.subscribe a) hsub).1, fun o ho => ?_⟩
      refine (ih (s.subscribe a) hsub).2 o ?_
      rcases ho with ho | ho
      · rcases List.mem_cons.mp ho with h2 | h2
        · exact Or.inr (subscribe_mem s a o (Or.inr h2))
        · exact Or.inl h2
      · exact Or.inr (subscribe_mem s a o (Or.inl ho))

/-- Counting an update event in a `notify` trace counts the observer
in the observer set. -/
lemma count_map_pair (l : List Nat) (o : Nat) (args : String) :
    ((l.map (fun x => (x, args))).count (o, args)) = l.count o := by
  induction l with
  | nil => rfl
  | cons a rest ih => simp [List.count_cons, ih]

/-- A member of a duplicate-free list is counted exactly once. -/
lemma count_eq_one_of_nodup_mem :
    ∀ (l : List Nat) (o : Nat), l.Nodup → o ∈ l → l.count o = 1 := by
  intro l
  induction l with
  | nil => intro o _ ho; cases ho
  | cons a rest ih =>
      intro o hnd ho
      rcases List.mem_cons.mp ho with rfl | hmem
      · have hna : o ∉ rest := (List.nodup_cons.mp hnd).1
        simp [List.count_cons, List.count_eq_zero.mpr hna]
      · have hne : o ≠ a := by
          rintro rfl
          exact (List.nodup_cons.mp hnd).1 hmem
        simp [List.count_cons, hne,
          ih o (List.nodup_cons.mp hnd).2 hmem]

/-- C9 (confirmed): `subscribe` is idempotent (re-subscribing a
subscribed observer leaves the subject unchanged), and after any
sequence of `subscribe` calls on a fresh subject every subscribed
observer receives `update(*args)` exactly once per `notify(*args)`
call, no matter how many times it was subscribed. -/
theorem subject_subscribe_idempotent :
    (∀ (s : Subject) (o : Nat), (s.subscribe o).subscribe o = s.subscribe o) ∧
    (∀ (subs : List Nat) (o : Nat) (args : String), o ∈ subs →
        ((subscribeAll subs).notify args).count (o, args) = 1) := by
  constructor
  · intro s o
    by_cases h : o ∈ s.observers
    · simp [Subject.subscribe, h]
    · simp [Subject.subscribe, h]
  · intro subs o args ho
    have hinv := foldl_subscribe_invariant subs ⟨[]⟩ (by simp)
    rw [Subject.notify, count_map_pair]
    exact count_eq_one_of_nodup_mem _ o hinv.1 (hinv.2 o (Or.inl ho))

/-- Witness for `subject_subscribe_idempotent`: observer `1` subscribed
twice still receives exactly one update. -/
theorem subject_subscribe_idempotent_witness :
    ((Subject.mk [2]).subscribe 1).subscribe 1 =
      (Subject.mk [2]).subscribe 1 ∧
    ((subscribeAll [1, 2, 1]).notify "First notification").count
      (1, "First notification") = 1 :=
  ⟨subject_subscribe_idempotent.1 (Subject.mk [2]) 1,
   subject_subscribe_idempotent.2 [1, 2, 1] 1 "First notification"
     (by decide)⟩

/-- C10 (confirmed): `Caretaker.restore(i)` only reads the stored
mementos — the caretaker's snapshot list is unchanged — so snapshots
can be restored repeatedly and in any order: restoring `i` after any
other restore `j` leaves the originator in the same state as restoring
`i` directly. -/
theorem restore_nondestructive (w : CaretakerWorld) (i j : Nat)
    (hi : i < w.mementos.length) (hj : j < w.mementos.length) :
    (w.restore i hi).mementos = w.mementos ∧
    ((w.restore j hj).restore i hi).originatorState =
      (w.restore i hi).originatorState :=
  ⟨rfl, rfl⟩

/-- Witness for `restore_nondestructive` on the memento example's
scenario. -/
theorem restore_nondestructive_witness :
    (mementoScenario.restore 0 (by decide)).mementos =
      mementoScenario.mementos ∧
    ((mementoScenario.restore 1 (by decide)).restore 0
        (by decide)).originatorState =
      (mementoScenario.restore 0 (by decide)).originatorState :=
  restore_nondestructive mementoScenario 0 1 (by decide) (by decide)

end ArchitectureTest
